import Mathlib

/-!
Shallow embedding of the ROI Simulator core of `api_explorer_dashboard.py`:
the trade-ledger session state, the mutation callbacks, the spot-balance
replay, the high-water-mark (HWM) spot-flow calculation, and the principal
adjustment / adjusted PnL / ROI computation.

Python floats are modelled as rationals; Streamlit session state is modelled
as an explicit `SimState` record threaded through the callbacks; a Python
`IndexError` raised by `list.pop` is modelled as `none`.
-/

namespace CoinmapExplorer

/-- The `'type'` field of a trade dict: `'BUY'` or `'SELL'`. -/
inductive TradeType where
  | BUY : TradeType
  | SELL : TradeType
deriving DecidableEq, Repr

/-- One entry of `st.session_state.sim_trades`:
`{'type': ..., 'amount': ..., 'pnl': ...}`.  Buys are always appended with
`pnl = 0.0`; `t.get('pnl', 0.0)` is total because the field is always set. -/
structure Trade where
  type : TradeType
  amount : ℚ
  pnl : ℚ
deriving DecidableEq, Repr

/-- The simulator's Streamlit session state: the five scalar inputs and the
two ordered event ledgers. -/
structure SimState where
  sim_start_bal : ℚ
  sim_end_bal : ℚ
  sim_ext_dep : ℚ
  sim_ext_wd : ℚ
  sim_init_spot : ℚ
  sim_trades : List Trade
  sim_futures_pnl : List ℚ
deriving DecidableEq, Repr

/-- `sum(t['amount'] for t in sim_trades if t['type'] == 'SELL')`. -/
def val_spot_sell (trades : List Trade) : ℚ :=
  ((trades.filter (fun t => t.type = TradeType.SELL)).map Trade.amount).sum

/-- `sum(t['amount'] for t in sim_trades if t['type'] == 'BUY')`. -/
def val_spot_buy (trades : List Trade) : ℚ :=
  ((trades.filter (fun t => t.type = TradeType.BUY)).map Trade.amount).sum

/-- One iteration of the spot-balance replay loop: a BUY adds its amount, a
SELL subtracts its cost basis `amount - pnl`. -/
def spotBalStep (bal : ℚ) (t : Trade) : ℚ :=
  match t.type with
  | TradeType.BUY => bal + t.amount
  | TradeType.SELL => bal - (t.amount - t.pnl)

/-- `calc_spot_bal`: the replay of `sim_trades` starting from the initial
spot balance, before the final clamp. -/
def calc_spot_bal (init : ℚ) (trades : List Trade) : ℚ :=
  trades.foldl spotBalStep init

/-- `val_current_spot = max(0.0, calc_spot_bal)`: the clamp is applied once,
to the final fold result. -/
def val_current_spot (init : ℚ) (trades : List Trade) : ℚ :=
  max 0 (calc_spot_bal init trades)

/-- The loop state of the HWM calculation: running cumulative sell and buy
totals and the running maximum. -/
structure HwmAcc where
  cum_sell : ℚ
  cum_buy : ℚ
  max_val : ℚ
deriving DecidableEq, Repr

/-- One iteration of the HWM loop: update the cumulative totals, compute
`flow = (cum_sell - cum_buy) - min(cum_sell, val_initial_spot)`, and raise
the running maximum when `flow > max_val`. -/
def hwmStep (val_initial_spot : ℚ) (acc : HwmAcc) (t : Trade) : HwmAcc :=
  let cum_sell :=
    match t.type with
    | TradeType.SELL => acc.cum_sell + t.amount
    | TradeType.BUY => acc.cum_sell
  let cum_buy :=
    match t.type with
    | TradeType.SELL => acc.cum_buy
    | TradeType.BUY => acc.cum_buy + t.amount
  let deduction := min cum_sell val_initial_spot
  let flow := cum_sell - cum_buy - deduction
  ⟨cum_sell, cum_buy, if acc.max_val < flow then flow else acc.max_val⟩

/-- `hwm_spot_flow`: fold the HWM loop over the trade ledger starting from
`cum_sell = cum_buy = max_val = 0` and return the final `max_val`. -/
def hwm_spot_flow (val_initial_spot : ℚ) (trades : List Trade) : ℚ :=
  (trades.foldl (hwmStep val_initial_spot) ⟨0, 0, 0⟩).max_val

/-- `recalc_balance`: recomputes `sim_end_bal` from the other scalar inputs
and the two ledgers; every other field is left as it was. -/
def recalc_balance (s : SimState) : SimState :=
  let ss := val_spot_sell s.sim_trades
  let sb_amt := val_spot_buy s.sim_trades
  let manual_pnl_sum := s.sim_futures_pnl.sum
  { s with
    sim_end_bal :=
      s.sim_start_bal + s.sim_ext_dep - s.sim_ext_wd + ss - sb_amt + manual_pnl_sum }

/-- `add_sell_callback`: if the entered amount is `> 0`, append
`{'type': 'SELL', 'amount': amt, 'pnl': pnl}` and recalc; otherwise do
nothing. -/
def add_sell_callback (s : SimState) (amt pnl : ℚ) : SimState :=
  if 0 < amt then
    recalc_balance { s with sim_trades := s.sim_trades ++ [⟨TradeType.SELL, amt, pnl⟩] }
  else s

/-- `add_buy_callback`: if the entered amount is `> 0`, append
`{'type': 'BUY', 'amount': amt, 'pnl': 0.0}` and recalc; otherwise do
nothing. -/
def add_buy_callback (s : SimState) (amt : ℚ) : SimState :=
  if 0 < amt then
    recalc_balance { s with sim_trades := s.sim_trades ++ [⟨TradeType.BUY, amt, 0⟩] }
  else s

/-- Python `list.pop(idx)`: a negative index is first shifted by the length;
an index then out of `[0, len)` raises `IndexError`, modelled as `none`;
otherwise the element at that position is removed. -/
def listPop {α : Type} (xs : List α) (idx : Int) : Option (List α) :=
  let n : Int := xs.length
  let j : Int := if idx < 0 then idx + n else idx
  if 0 ≤ j ∧ j < n then some (xs.eraseIdx j.toNat) else none

/-- `del_trade_callback`: `sim_trades.pop(idx)` then recalc; on `IndexError`
the exception propagates and the state is unchanged (`none`). -/
def del_trade_callback (s : SimState) (idx : Int) : Option SimState :=
  match listPop s.sim_trades idx with
  | some ts => some (recalc_balance { s with sim_trades := ts })
  | none => none

/-- `add_futures_pnl_callback`: if the entered PnL is `!= 0`, append it and
recalc; otherwise do nothing. -/
def add_futures_pnl_callback (s : SimState) (pnl : ℚ) : SimState :=
  if pnl ≠ 0 then
    recalc_balance { s with sim_futures_pnl := s.sim_futures_pnl ++ [pnl] }
  else s

/-- `del_futures_pnl_callback`: `sim_futures_pnl.pop(idx)` then recalc; on
`IndexError` the state is unchanged (`none`). -/
def del_futures_pnl_callback (s : SimState) (idx : Int) : Option SimState :=
  match listPop s.sim_futures_pnl idx with
  | some ps => some (recalc_balance { s with sim_futures_pnl := ps })
  | none => none

/-- `reset_trades_callback`: clear both ledgers, zero the five scalar
inputs, then recalc. -/
def reset_trades_callback (_s : SimState) : SimState :=
  recalc_balance
    { sim_start_bal := 0, sim_end_bal := 0, sim_ext_dep := 0, sim_ext_wd := 0,
      sim_init_spot := 0, sim_trades := [], sim_futures_pnl := [] }

/-- The derived results computed at the bottom of the ROI Simulator. -/
structure SimResult where
  total_deposit : ℚ
  total_withdrawal : ℚ
  hwm : ℚ
  principal_adj : ℚ
  adjusted_pnl : ℚ
  roi : ℚ
  current_spot : ℚ
deriving DecidableEq, Repr

/-- The result-computation pass, parameterised by the venue policy flag
`okx` (`exchange_mode.startswith("OKX")`).  In the non-OKX branch the code
sets `val_spot_sell = val_spot_buy = val_initial_spot = 0.0` and never runs
the HWM loop (`hwm_spot_flow` stays `0.0`); `use_hwm` is hardcoded `True`,
so the HWM branch of `principal_adj` is the one taken for OKX. -/
def computeResult (okx : Bool) (s : SimState) : SimResult :=
  let vss := if okx then val_spot_sell s.sim_trades else 0
  let vsb := if okx then val_spot_buy s.sim_trades else 0
  let vinit := if okx then s.sim_init_spot else 0
  let hwm := if okx then hwm_spot_flow vinit s.sim_trades else 0
  let total_deposit := s.sim_ext_dep + vss
  let total_withdrawal := s.sim_ext_wd + vsb
  let principal_adj := if okx then s.sim_ext_dep + max 0 hwm else s.sim_ext_dep
  let raw_pnl := s.sim_end_bal - s.sim_start_bal
  let adjusted_pnl := raw_pnl - total_deposit + total_withdrawal
  let denominator := s.sim_start_bal + principal_adj
  let roi := if 0 < denominator then adjusted_pnl / denominator * 100 else 0
  let current_spot := max 0 (calc_spot_bal vinit s.sim_trades)
  ⟨total_deposit, total_withdrawal, hwm, principal_adj, adjusted_pnl, roi, current_spot⟩

/-- The net spot flow value the HWM loop computes after a given prefix:
`(cumSell - cumBuy) - min(cumSell, initialSpot)`, where `cumSell`/`cumBuy`
are the SELL/BUY amount totals of that prefix. -/
def flowAt (val_initial_spot : ℚ) (trades : List Trade) : ℚ :=
  val_spot_sell trades - val_spot_buy trades
    - min (val_spot_sell trades) val_initial_spot

/-- The flow values at every non-empty prefix of the ledger, in order. -/
def prefixFlows (val_initial_spot : ℚ) (trades : List Trade) : List ℚ :=
  (List.range trades.length).map (fun k => flowAt val_initial_spot (trades.take (k + 1)))

/-- The four scalar inputs other than `sim_end_bal`, bundled for frame
statements. -/
def fourScalars (s : SimState) : ℚ × ℚ × ℚ × ℚ :=
  (s.sim_start_bal, s.sim_ext_dep, s.sim_ext_wd, s.sim_init_spot)

/-! ### Helper lemmas -/

theorem val_spot_sell_nil : val_spot_sell [] = 0 := rfl

theorem val_spot_buy_nil : val_spot_buy [] = 0 := rfl

theorem val_spot_sell_cons (t : Trade) (ts : List Trade) :
    val_spot_sell (t :: ts) =
      (if t.type = TradeType.SELL then t.amount else 0) + val_spot_sell ts := by
  unfold val_spot_sell
  rw [List.filter_cons]
  by_cases h : t.type = TradeType.SELL
  · simp [h]
  · simp [h]

theorem val_spot_buy_cons (t : Trade) (ts : List Trade) :
    val_spot_buy (t :: ts) =
      (if t.type = TradeType.BUY then t.amount else 0) + val_spot_buy ts := by
  unfold val_spot_buy
  rw [List.filter_cons]
  by_cases h : t.type = TradeType.BUY
  · simp [h]
  · simp [h]

theorem val_spot_sell_append (ts : List Trade) (t : Trade) :
    val_spot_sell (ts ++ [t]) =
      val_spot_sell ts + (if t.type = TradeType.SELL then t.amount else 0) := by
  unfold val_spot_sell
  rw [List.filter_append, List.map_append, List.sum_append]
  by_cases h : t.type = TradeType.SELL
  · simp [h]
  · simp [h]

theorem val_spot_buy_append (ts : List Trade) (t : Trade) :
    val_spot_buy (ts ++ [t]) =
      val_spot_buy ts + (if t.type = TradeType.BUY then t.amount else 0) := by
  unfold val_spot_buy
  rw [List.filter_append, List.map_append, List.sum_append]
  by_cases h : t.type = TradeType.BUY
  · simp [h]
  · simp [h]

theorem ite_lt_max (m f : ℚ) : (if m < f then f else m) = max m f := by
  rcases lt_or_ge m f with h | h
  · rw [if_pos h, max_eq_right (le_of_lt h)]
  · rw [if_neg (not_lt.mpr h), max_eq_left h]

theorem hwm_foldl_cum_sell (init : ℚ) (ts : List Trade) (acc : HwmAcc) :
    (List.foldl (hwmStep init) acc ts).cum_sell = acc.cum_sell + val_spot_sell ts := by
  induction ts generalizing acc with
  | nil => simp [val_spot_sell]
  | cons t ts ih =>
    rw [List.foldl_cons, ih, val_spot_sell_cons]
    cases h : t.type <;> (simp [hwmStep, h]; try ring)

theorem hwm_foldl_cum_buy (init : ℚ) (ts : List Trade) (acc : HwmAcc) :
    (List.foldl (hwmStep init) acc ts).cum_buy = acc.cum_buy + val_spot_buy ts := by
  induction ts generalizing acc with
  | nil => simp [val_spot_buy]
  | cons t ts ih =>
    rw [List.foldl_cons, ih, val_spot_buy_cons]
    cases h : t.type <;> (simp [hwmStep, h]; try ring)

/-- The HWM after appending one event is the max of the old HWM and the flow
value computed at the full (appended) sequence. -/
theorem hwm_spot_flow_append (init : ℚ) (ts : List Trade) (t : Trade) :
    hwm_spot_flow init (ts ++ [t]) =
      max (hwm_spot_flow init ts) (flowAt init (ts ++ [t])) := by
  unfold hwm_spot_flow
  rw [List.foldl_append]
  have hs : (List.foldl (hwmStep init) ⟨0, 0, 0⟩ ts).cum_sell = val_spot_sell ts := by
    rw [hwm_foldl_cum_sell]; ring
  have hb : (List.foldl (hwmStep init) ⟨0, 0, 0⟩ ts).cum_buy = val_spot_buy ts := by
    rw [hwm_foldl_cum_buy]; ring
  rw [List.foldl_cons, List.foldl_nil]
  unfold flowAt
  rw [val_spot_sell_append, val_spot_buy_append]
  cases h : t.type
  · simp [hwmStep, h, hs, hb, ite_lt_max]
  · simp [hwmStep, h, hs, hb, ite_lt_max]

theorem prefixFlows_append (init : ℚ) (ts : List Trade) (t : Trade) :
    prefixFlows init (ts ++ [t]) =
      prefixFlows init ts ++ [flowAt init (ts ++ [t])] := by
  unfold prefixFlows
  have hlen : (ts ++ [t]).length = ts.length + 1 := by simp
  rw [hlen, List.range_succ, List.map_append]
  congr 1
  · apply List.map_congr_left
    intro k hk
    rw [List.mem_range] at hk
    rw [List.take_append_of_le_length (by omega)]
  · have htake : (ts ++ [t]).take (ts.length + 1) = ts ++ [t] := by
      rw [← hlen, List.take_length]
    simp [htake]

/-- The sum of cost bases `amount - pnl` over the SELL events of a ledger. -/
def sellCostOf (trades : List Trade) : ℚ :=
  ((trades.filter (fun t => t.type = TradeType.SELL)).map
    (fun t => t.amount - t.pnl)).sum

theorem sellCostOf_cons (t : Trade) (ts : List Trade) :
    sellCostOf (t :: ts) =
      (if t.type = TradeType.SELL then t.amount - t.pnl else 0) + sellCostOf ts := by
  unfold sellCostOf
  rw [List.filter_cons]
  by_cases h : t.type = TradeType.SELL
  · simp [h]
  · simp [h]

/-- The unclamped spot-balance replay has the closed form
`init + totalSpotBuy - (sum of SELL cost bases)`. -/
theorem calc_spot_bal_eq (ts : List Trade) (init : ℚ) :
    calc_spot_bal init ts = init + val_spot_buy ts - sellCostOf ts := by
  induction ts generalizing init with
  | nil => simp [calc_spot_bal, val_spot_buy, sellCostOf]
  | cons t ts ih =>
    have h1 : calc_spot_bal init (t :: ts) = calc_spot_bal (spotBalStep init t) ts := rfl
    rw [h1, ih, val_spot_buy_cons, sellCostOf_cons]
    cases h : t.type
    · simp [spotBalStep, h]; ring
    · simp [spotBalStep, h]; ring

/-! ### Claim theorems -/

/-- C1: for every non-negative `initialSpotBalance`, `hwm_spot_flow` equals
the maximum of `0` and the flow value
`(cumSell - cumBuy) - min(cumSell, initialSpotBalance)` taken over all
non-empty prefixes of the event sequence, and on the empty sequence it
is `0`. -/
theorem hwm_eq_prefix_max (init : ℚ) (_hinit : 0 ≤ init) (ts : List Trade) :
    hwm_spot_flow init ts = (prefixFlows init ts).foldl max 0 ∧
      hwm_spot_flow init [] = 0 := by
  constructor
  · induction ts using List.reverseRecOn with
    | nil => rfl
    | append_singleton ts t ih =>
      rw [hwm_spot_flow_append, prefixFlows_append, List.foldl_append,
        List.foldl_cons, List.foldl_nil, ih]
  · rfl

theorem hwm_eq_prefix_max_app : (0 : ℚ) ≤ 5 ∧
    (hwm_spot_flow 5 [⟨TradeType.SELL, 10, 0⟩] =
        (prefixFlows 5 [⟨TradeType.SELL, 10, 0⟩]).foldl max 0 ∧
      hwm_spot_flow 5 [] = 0) :=
  ⟨by norm_num, hwm_eq_prefix_max 5 (by norm_num) [⟨TradeType.SELL, 10, 0⟩]⟩

/-- C6: for any fixed non-negative initial spot balance, `hwm_spot_flow` is
monotonically non-decreasing under appending one event. -/
theorem hwm_monotone_append (init : ℚ) (_hinit : 0 ≤ init)
    (ts : List Trade) (e : Trade) :
    hwm_spot_flow init ts ≤ hwm_spot_flow init (ts ++ [e]) := by
  rw [hwm_spot_flow_append]
  exact le_max_left _ _

theorem hwm_monotone_append_app : (0 : ℚ) ≤ 0 ∧
    hwm_spot_flow 0 [⟨TradeType.BUY, 3, 0⟩] ≤
      hwm_spot_flow 0 ([⟨TradeType.BUY, 3, 0⟩] ++ [⟨TradeType.SELL, 1, 0⟩]) :=
  ⟨by norm_num, hwm_monotone_append 0 (by norm_num) [⟨TradeType.BUY, 3, 0⟩]
    ⟨TradeType.SELL, 1, 0⟩⟩

/-- C2: the current spot balance is `max(0, initialSpotBalance + sum of BUY
amounts - sum over SELL events of (amount - realizedPnl))`, the clamp being
applied once to the final fold result; in particular
`initialSpotBalance = 30` with the single event `SELL{amount=10, pnl=-20}`
yields `0`. -/
theorem current_spot_closed_form :
    (∀ (init : ℚ) (ts : List Trade), 0 ≤ init →
      val_current_spot init ts = max 0 (init + val_spot_buy ts - sellCostOf ts)) ∧
    val_current_spot 30 [⟨TradeType.SELL, 10, -20⟩] = 0 := by
  constructor
  · intro init ts _
    unfold val_current_spot
    rw [calc_spot_bal_eq]
  · norm_num [val_current_spot, calc_spot_bal, spotBalStep]

theorem current_spot_closed_form_app : (0 : ℚ) ≤ 2 ∧
    val_current_spot 2 [] = max 0 (2 + val_spot_buy [] - sellCostOf []) :=
  ⟨by norm_num, current_spot_closed_form.1 2 [] (by norm_num)⟩

/-- A session state holding only the single ledger event `SELL 10`. -/
def oneSellState : SimState := ⟨0, 0, 0, 0, 0, [⟨TradeType.SELL, 10, 0⟩], []⟩

/-- The deposit/withdrawal reconciliation scenario state:
`startBalance = 1000`, `endBalance = 1200`, `externalDeposit = 300`,
`externalWithdrawal = 0`, no spot transfers. -/
def scenState : SimState := ⟨1000, 1200, 300, 0, 0, [], []⟩

/-- C3 counterexample: under Policy B (non-OKX) with the single ledger event
`SELL 10`, the code zeroes the spot totals, so its adjusted PnL is `0` and
not the claimed formula value `-10` that includes `totalSpotSell`. -/
theorem policyB_spot_totals_counterexample :
    (computeResult false oneSellState).adjusted_pnl ≠
      (oneSellState.sim_end_bal - oneSellState.sim_start_bal)
        - (oneSellState.sim_ext_dep + val_spot_sell oneSellState.sim_trades)
        + (oneSellState.sim_ext_wd + val_spot_buy oneSellState.sim_trades) := by
  have h1 : val_spot_sell oneSellState.sim_trades = 10 := by
    simp [oneSellState, val_spot_sell_cons, val_spot_sell_nil]
  have h2 : val_spot_buy oneSellState.sim_trades = 0 := by
    simp [oneSellState, val_spot_buy_cons, val_spot_buy_nil]
  rw [h1, h2]
  norm_num [computeResult, oneSellState]

/-- C3 (amended): under Policy A, `principalAdjustment = externalDeposit +
max(0, hwmSpotFlow)` and `adjustedPnl = (endBalance - startBalance) -
(externalDeposit + totalSpotSell) + (externalWithdrawal + totalSpotBuy)`;
under Policy B, `principalAdjustment = externalDeposit` and the spot totals
are excluded (treated as zero), so `adjustedPnl = (endBalance -
startBalance) - externalDeposit + externalWithdrawal`.  The reconciliation
scenario values hold as claimed. -/
theorem principal_and_adjusted_pnl_formulas :
    (∀ s : SimState, (computeResult true s).principal_adj =
        s.sim_ext_dep + max 0 (hwm_spot_flow s.sim_init_spot s.sim_trades)) ∧
    (∀ s : SimState, (computeResult false s).principal_adj = s.sim_ext_dep) ∧
    (∀ s : SimState, (computeResult true s).adjusted_pnl =
        (s.sim_end_bal - s.sim_start_bal)
          - (s.sim_ext_dep + val_spot_sell s.sim_trades)
          + (s.sim_ext_wd + val_spot_buy s.sim_trades)) ∧
    (∀ s : SimState, (computeResult false s).adjusted_pnl =
        (s.sim_end_bal - s.sim_start_bal) - s.sim_ext_dep + s.sim_ext_wd) ∧
    (computeResult true scenState).adjusted_pnl = -100 ∧
    (computeResult true scenState).principal_adj = 300 ∧
    (computeResult true scenState).roi = -100 / 1300 * 100 := by
  refine ⟨fun s => ?_, fun s => ?_, fun s => ?_, fun s => ?_, ?_, ?_, ?_⟩
  · simp [computeResult]
  · simp [computeResult]
  · simp [computeResult]
  · simp [computeResult]
  · norm_num [computeResult, scenState, val_spot_sell, val_spot_buy, hwm_spot_flow]
  · norm_num [computeResult, scenState, val_spot_sell, val_spot_buy, hwm_spot_flow]
  · norm_num [computeResult, scenState, val_spot_sell, val_spot_buy, hwm_spot_flow]

/-- The `roi` field of the result is exactly the guarded division on the
denominator `startBalance + principalAdjustment`. -/
theorem computeResult_roi_eq (okx : Bool) (s : SimState) :
    (computeResult okx s).roi =
      if 0 < s.sim_start_bal + (computeResult okx s).principal_adj then
        (computeResult okx s).adjusted_pnl /
          (s.sim_start_bal + (computeResult okx s).principal_adj) * 100
      else 0 := by
  cases okx <;> rfl

/-- C5: the ROI computation is division-guarded: for non-negative
`startBalance` and `externalDeposit` (hence non-negative
`principalAdjustment`), if the denominator `startBalance +
principalAdjustment` is strictly positive then
`roi = adjustedPnl / denominator * 100`, and otherwise both summands are
zero and `roi = 0`. -/
theorem roi_division_guarded (okx : Bool) (s : SimState)
    (hstart : 0 ≤ s.sim_start_bal) (hdep : 0 ≤ s.sim_ext_dep) :
    (0 < s.sim_start_bal + (computeResult okx s).principal_adj →
      (computeResult okx s).roi =
        (computeResult okx s).adjusted_pnl /
          (s.sim_start_bal + (computeResult okx s).principal_adj) * 100) ∧
    (s.sim_start_bal + (computeResult okx s).principal_adj ≤ 0 →
      s.sim_start_bal = 0 ∧ (computeResult okx s).principal_adj = 0 ∧
        (computeResult okx s).roi = 0) := by
  have hpa : 0 ≤ (computeResult okx s).principal_adj := by
    cases okx
    · simpa [computeResult] using hdep
    · simp only [computeResult]
      exact add_nonneg hdep (le_max_left 0 _)
  constructor
  · intro hpos
    rw [computeResult_roi_eq, if_pos hpos]
  · intro hle
    have h1 : s.sim_start_bal = 0 := le_antisymm (by linarith) hstart
    have h2 : (computeResult okx s).principal_adj = 0 := le_antisymm (by linarith) hpa
    refine ⟨h1, h2, ?_⟩
    rw [computeResult_roi_eq, if_neg (by rw [h1, h2]; norm_num)]

theorem roi_division_guarded_app : (0 : ℚ) ≤ scenState.sim_start_bal ∧
    (0 : ℚ) ≤ scenState.sim_ext_dep ∧
    ((0 < scenState.sim_start_bal + (computeResult true scenState).principal_adj →
      (computeResult true scenState).roi =
        (computeResult true scenState).adjusted_pnl /
          (scenState.sim_start_bal + (computeResult true scenState).principal_adj) * 100) ∧
    (scenState.sim_start_bal + (computeResult true scenState).principal_adj ≤ 0 →
      scenState.sim_start_bal = 0 ∧ (computeResult true scenState).principal_adj = 0 ∧
        (computeResult true scenState).roi = 0)) :=
  ⟨by norm_num [scenState], by norm_num [scenState],
    roi_division_guarded true scenState (by norm_num [scenState])
      (by norm_num [scenState])⟩

/-- The all-zero session state: both ledgers empty, all scalars zero. -/
def zeroState : SimState := ⟨0, 0, 0, 0, 0, [], []⟩

/-- C4 counterexample: appending the spot transfer `SELL 10` to the all-zero
state changes `sim_end_bal` (`recalc_balance` overwrites it), so
`endBalance` is not left unchanged by ledger mutations. -/
theorem endbal_mutated_counterexample :
    (add_sell_callback zeroState 10 0).sim_end_bal ≠ zeroState.sim_end_bal := by
  rw [add_sell_callback, if_pos (by norm_num : (0:ℚ) < 10)]
  simp [recalc_balance, zeroState, val_spot_sell_cons, val_spot_buy_cons,
    val_spot_sell_nil, val_spot_buy_nil]

/-- C4 (amended): every ledger mutation leaves the four scalar inputs
`startBalance`, `externalDeposit`, `externalWithdrawal`,
`initialSpotBalance` unchanged, but recomputes `endBalance` as
`startBalance + externalDeposit - externalWithdrawal + totalSpotSell -
totalSpotBuy + (sum of futures PnL events)` over the mutated ledgers — so
`endBalance` is overwritten, not preserved, by ledger mutations.  The
overwrite is stated for each of the five mutating operations: the two spot
appends (under their `amt > 0` guard), the futures-PnL append (under its
`pnl != 0` guard), and the two successful deletes. -/
theorem ledger_mutations_frame :
    (∀ (s : SimState) (amt pnl : ℚ),
      fourScalars (add_sell_callback s amt pnl) = fourScalars s) ∧
    (∀ (s : SimState) (amt : ℚ),
      fourScalars (add_buy_callback s amt) = fourScalars s) ∧
    (∀ (s : SimState) (p : ℚ),
      fourScalars (add_futures_pnl_callback s p) = fourScalars s) ∧
    (∀ (s : SimState) (i : Int) (t : SimState),
      del_trade_callback s i = some t → fourScalars t = fourScalars s) ∧
    (∀ (s : SimState) (i : Int) (t : SimState),
      del_futures_pnl_callback s i = some t → fourScalars t = fourScalars s) ∧
    (∀ (s : SimState) (amt pnl : ℚ), 0 < amt →
      (add_sell_callback s amt pnl).sim_end_bal =
        s.sim_start_bal + s.sim_ext_dep - s.sim_ext_wd
          + val_spot_sell (s.sim_trades ++ [⟨TradeType.SELL, amt, pnl⟩])
          - val_spot_buy (s.sim_trades ++ [⟨TradeType.SELL, amt, pnl⟩])
          + s.sim_futures_pnl.sum) ∧
    (∀ (s : SimState) (amt : ℚ), 0 < amt →
      (add_buy_callback s amt).sim_end_bal =
        s.sim_start_bal + s.sim_ext_dep - s.sim_ext_wd
          + val_spot_sell (s.sim_trades ++ [⟨TradeType.BUY, amt, 0⟩])
          - val_spot_buy (s.sim_trades ++ [⟨TradeType.BUY, amt, 0⟩])
          + s.sim_futures_pnl.sum) ∧
    (∀ (s : SimState) (p : ℚ), p ≠ 0 →
      (add_futures_pnl_callback s p).sim_end_bal =
        s.sim_start_bal + s.sim_ext_dep - s.sim_ext_wd
          + val_spot_sell s.sim_trades - val_spot_buy s.sim_trades
          + (s.sim_futures_pnl ++ [p]).sum) ∧
    (∀ (s : SimState) (i : Int) (t : SimState),
      del_trade_callback s i = some t →
        t.sim_end_bal =
          s.sim_start_bal + s.sim_ext_dep - s.sim_ext_wd
            + val_spot_sell t.sim_trades - val_spot_buy t.sim_trades
            + s.sim_futures_pnl.sum) ∧
    (∀ (s : SimState) (i : Int) (t : SimState),
      del_futures_pnl_callback s i = some t →
        t.sim_end_bal =
          s.sim_start_bal + s.sim_ext_dep - s.sim_ext_wd
            + val_spot_sell s.sim_trades - val_spot_buy s.sim_trades
            + t.sim_futures_pnl.sum) := by
  refine ⟨?_, ?_, ?_, ?_, ?_, ?_, ?_, ?_, ?_, ?_⟩
  · intro s amt pnl
    by_cases h : 0 < amt <;> simp [add_sell_callback, recalc_balance, fourScalars, h]
  · intro s amt
    by_cases h : 0 < amt <;> simp [add_buy_callback, recalc_balance, fourScalars, h]
  · intro s p
    by_cases h : p = 0 <;> simp [add_futures_pnl_callback, recalc_balance, fourScalars, h]
  · intro s i t ht
    unfold del_trade_callback at ht
    cases hp : listPop s.sim_trades i <;> rw [hp] at ht
    · exact absurd ht (by simp)
    · injection ht with ht'
      rw [← ht']
      simp [recalc_balance, fourScalars]
  · intro s i t ht
    unfold del_futures_pnl_callback at ht
    cases hp : listPop s.sim_futures_pnl i <;> rw [hp] at ht
    · exact absurd ht (by simp)
    · injection ht with ht'
      rw [← ht']
      simp [recalc_balance, fourScalars]
  · intro s amt pnl h
    rw [add_sell_callback, if_pos h]
    simp [recalc_balance]
  · intro s amt h
    rw [add_buy_callback, if_pos h]
    simp [recalc_balance]
  · intro s p h
    rw [add_futures_pnl_callback, if_pos h]
    simp [recalc_balance]
  · intro s i t ht
    unfold del_trade_callback at ht
    cases hp : listPop s.sim_trades i <;> rw [hp] at ht
    · exact absurd ht (by simp)
    · injection ht with ht'
      rw [← ht']
      simp [recalc_balance]
  · intro s i t ht
    unfold del_futures_pnl_callback at ht
    cases hp : listPop s.sim_futures_pnl i <;> rw [hp] at ht
    · exact absurd ht (by simp)
    · injection ht with ht'
      rw [← ht']
      simp [recalc_balance]

theorem ledger_mutations_frame_app : (0 : ℚ) < 7 ∧ (3 : ℚ) ≠ 0 ∧
    ((add_sell_callback zeroState 7 1).sim_end_bal =
      zeroState.sim_start_bal + zeroState.sim_ext_dep - zeroState.sim_ext_wd
        + val_spot_sell (zeroState.sim_trades ++ [⟨TradeType.SELL, 7, 1⟩])
        - val_spot_buy (zeroState.sim_trades ++ [⟨TradeType.SELL, 7, 1⟩])
        + zeroState.sim_futures_pnl.sum) ∧
    ((add_buy_callback zeroState 7).sim_end_bal =
      zeroState.sim_start_bal + zeroState.sim_ext_dep - zeroState.sim_ext_wd
        + val_spot_sell (zeroState.sim_trades ++ [⟨TradeType.BUY, 7, 0⟩])
        - val_spot_buy (zeroState.sim_trades ++ [⟨TradeType.BUY, 7, 0⟩])
        + zeroState.sim_futures_pnl.sum) ∧
    ((add_futures_pnl_callback zeroState 3).sim_end_bal =
      zeroState.sim_start_bal + zeroState.sim_ext_dep - zeroState.sim_ext_wd
        + val_spot_sell zeroState.sim_trades - val_spot_buy zeroState.sim_trades
        + (zeroState.sim_futures_pnl ++ [3]).sum) :=
  ⟨by norm_num, by norm_num,
    ledger_mutations_frame.2.2.2.2.2.1 zeroState 7 1 (by norm_num),
    ledger_mutations_frame.2.2.2.2.2.2.1 zeroState 7 (by norm_num),
    ledger_mutations_frame.2.2.2.2.2.2.2.1 zeroState 3 (by norm_num)⟩

/-- C7 counterexample: appending a zero-amount SELL to the empty ledger does
not append the event — the `amt > 0` guard leaves the ledger empty. -/
theorem zero_amount_append_counterexample :
    (add_sell_callback zeroState 0 0).sim_trades ≠
      zeroState.sim_trades ++ [⟨TradeType.SELL, 0, 0⟩] := by
  simp [add_sell_callback, zeroState]

/-- C7 (amended): a spot-transfer append with amount `≤ 0` — zero included —
is silently ignored: the state is returned unchanged, with no event appended
and no error; only an amount `> 0` appends the event to the end of
`sim_trades`. -/
theorem spot_append_guard :
    (∀ (s : SimState) (amt pnl : ℚ), amt ≤ 0 → add_sell_callback s amt pnl = s) ∧
    (∀ (s : SimState) (amt : ℚ), amt ≤ 0 → add_buy_callback s amt = s) ∧
    (∀ (s : SimState) (amt pnl : ℚ), 0 < amt →
      (add_sell_callback s amt pnl).sim_trades =
        s.sim_trades ++ [⟨TradeType.SELL, amt, pnl⟩]) ∧
    (∀ (s : SimState) (amt : ℚ), 0 < amt →
      (add_buy_callback s amt).sim_trades =
        s.sim_trades ++ [⟨TradeType.BUY, amt, 0⟩]) := by
  refine ⟨?_, ?_, ?_, ?_⟩
  · intro s amt pnl h
    rw [add_sell_callback, if_neg (not_lt.mpr h)]
  · intro s amt h
    rw [add_buy_callback, if_neg (not_lt.mpr h)]
  · intro s amt pnl h
    rw [add_sell_callback, if_pos h]
    simp [recalc_balance]
  · intro s amt h
    rw [add_buy_callback, if_pos h]
    simp [recalc_balance]

theorem spot_append_guard_app : (0 : ℚ) ≤ 0 ∧
    add_sell_callback zeroState 0 0 = zeroState :=
  ⟨by norm_num, spot_append_guard.1 zeroState 0 0 (by norm_num)⟩

/-- C9: appending a futures-PnL event of exactly `0` is rejected atomically
(the whole state is unchanged), while any nonzero amount is appended to the
end of `sim_futures_pnl` with the trade ledger untouched. -/
theorem futures_pnl_append_guard :
    (∀ s : SimState, add_futures_pnl_callback s 0 = s) ∧
    (∀ (s : SimState) (p : ℚ), p ≠ 0 →
      (add_futures_pnl_callback s p).sim_futures_pnl =
          s.sim_futures_pnl ++ [p] ∧
        (add_futures_pnl_callback s p).sim_trades = s.sim_trades) := by
  constructor
  · intro s
    simp [add_futures_pnl_callback]
  · intro s p h
    rw [add_futures_pnl_callback, if_pos h]
    simp [recalc_balance]

theorem futures_pnl_append_guard_app : (5 : ℚ) ≠ 0 ∧
    ((add_futures_pnl_callback zeroState 5).sim_futures_pnl =
        zeroState.sim_futures_pnl ++ [5] ∧
      (add_futures_pnl_callback zeroState 5).sim_trades = zeroState.sim_trades) :=
  ⟨by norm_num, futures_pnl_append_guard.2 zeroState 5 (by norm_num)⟩

theorem listPop_ge {α : Type} (xs : List α) (i : Int)
    (h : (xs.length : Int) ≤ i) : listPop xs i = none := by
  simp only [listPop]
  have hn : (0 : Int) ≤ (xs.length : Int) := Int.natCast_nonneg _
  rw [if_neg (by omega : ¬ i < 0)]
  rw [if_neg (by omega : ¬ ((0 : Int) ≤ i ∧ i < (xs.length : Int)))]

theorem listPop_nat_lt {α : Type} (xs : List α) (i : Nat)
    (h : i < xs.length) : listPop xs i = some (xs.eraseIdx i) := by
  simp only [listPop]
  rw [if_neg (by omega : ¬ (i : Int) < 0)]
  rw [if_pos ⟨by omega, by omega⟩]
  simp

theorem listPop_neg_inbounds {α : Type} (xs : List α) (i : Int)
    (h1 : -(xs.length : Int) ≤ i) (h2 : i < 0) :
    listPop xs i = some (xs.eraseIdx (i + xs.length).toNat) := by
  simp only [listPop]
  rw [if_pos h2]
  rw [if_pos ⟨by omega, by omega⟩]

theorem listPop_neg_oob {α : Type} (xs : List α) (i : Int)
    (h : i < -(xs.length : Int)) : listPop xs i = none := by
  simp only [listPop]
  rw [if_pos (by omega : i < 0)]
  rw [if_neg (by omega : ¬ ((0 : Int) ≤ i + (xs.length : Int) ∧
    i + (xs.length : Int) < (xs.length : Int)))]

/-- C8: deleting at an index `≥` the ledger length raises `IndexError`
(modelled as `none`, the ledger and all derived results unchanged), while an
in-range non-negative index removes exactly that element, preserving the
relative order of the rest — true for both the spot-transfer and the
futures-PnL ledgers. -/
theorem delete_by_index_contract :
    (∀ (s : SimState) (i : Int), (s.sim_trades.length : Int) ≤ i →
      del_trade_callback s i = none) ∧
    (∀ (s : SimState) (i : Nat), i < s.sim_trades.length →
      ∃ t, del_trade_callback s (i : Int) = some t ∧
        t.sim_trades = s.sim_trades.take i ++ s.sim_trades.drop (i + 1)) ∧
    (∀ (s : SimState) (i : Int), (s.sim_futures_pnl.length : Int) ≤ i →
      del_futures_pnl_callback s i = none) ∧
    (∀ (s : SimState) (i : Nat), i < s.sim_futures_pnl.length →
      ∃ t, del_futures_pnl_callback s (i : Int) = some t ∧
        t.sim_futures_pnl =
          s.sim_futures_pnl.take i ++ s.sim_futures_pnl.drop (i + 1)) := by
  refine ⟨?_, ?_, ?_, ?_⟩
  · intro s i h
    unfold del_trade_callback
    rw [listPop_ge _ _ h]
  · intro s i h
    refine ⟨recalc_balance { s with sim_trades := s.sim_trades.eraseIdx i }, ?_, ?_⟩
    · unfold del_trade_callback
      rw [listPop_nat_lt _ _ h]
    · simp [recalc_balance, List.eraseIdx_eq_take_drop_succ]
  · intro s i h
    unfold del_futures_pnl_callback
    rw [listPop_ge _ _ h]
  · intro s i h
    refine ⟨recalc_balance
      { s with sim_futures_pnl := s.sim_futures_pnl.eraseIdx i }, ?_, ?_⟩
    · unfold del_futures_pnl_callback
      rw [listPop_nat_lt _ _ h]
    · simp [recalc_balance, List.eraseIdx_eq_take_drop_succ]

/-- The spec's delete scenario state: ledger `[SELL 5, BUY 3]`. -/
def twoTradeState : SimState :=
  ⟨0, 0, 0, 0, 0, [⟨TradeType.SELL, 5, 0⟩, ⟨TradeType.BUY, 3, 0⟩], []⟩

theorem delete_by_index_contract_app :
    twoTradeState.sim_trades.length = 2 ∧
    (∃ t, del_trade_callback twoTradeState ((0 : Nat) : Int) = some t ∧
      t.sim_trades =
        twoTradeState.sim_trades.take 0 ++ twoTradeState.sim_trades.drop 1) :=
  ⟨by simp [twoTradeState],
    delete_by_index_contract.2.1 twoTradeState 0 (by simp [twoTradeState])⟩

/-- C10: `del_trade_callback` follows Python negative-index semantics: for
`-(length) ≤ i ≤ -1` the element at position `length + i` is removed (so
`-1` removes the last element), and only `i < -(length)` raises
`IndexError`. -/
theorem delete_negative_index_python :
    (∀ (s : SimState) (i : Int), -(s.sim_trades.length : Int) ≤ i → i < 0 →
      ∃ t, del_trade_callback s i = some t ∧
        t.sim_trades =
          s.sim_trades.take (i + s.sim_trades.length).toNat ++
            s.sim_trades.drop ((i + s.sim_trades.length).toNat + 1)) ∧
    (∀ (s : SimState) (i : Int), i < -(s.sim_trades.length : Int) →
      del_trade_callback s i = none) := by
  constructor
  · intro s i h1 h2
    refine ⟨recalc_balance
      { s with sim_trades :=
          s.sim_trades.eraseIdx (i + s.sim_trades.length).toNat }, ?_, ?_⟩
    · unfold del_trade_callback
      rw [listPop_neg_inbounds _ _ h1 h2]
    · simp [recalc_balance, List.eraseIdx_eq_take_drop_succ]
  · intro s i h
    unfold del_trade_callback
    rw [listPop_neg_oob _ _ h]

theorem delete_negative_index_python_app :
    (-(twoTradeState.sim_trades.length : Int) ≤ -1 ∧ (-1 : Int) < 0) ∧
    (∃ t, del_trade_callback twoTradeState (-1) = some t ∧
      t.sim_trades =
        twoTradeState.sim_trades.take
            ((-1 : Int) + (twoTradeState.sim_trades.length : Int)).toNat ++
          twoTradeState.sim_trades.drop
            (((-1 : Int) + (twoTradeState.sim_trades.length : Int)).toNat + 1)) :=
  ⟨⟨by simp [twoTradeState], by norm_num⟩,
    delete_negative_index_python.1 twoTradeState (-1)
      (by simp [twoTradeState]) (by norm_num)⟩

end CoinmapExplorer
